import Mathlib

/-!
Verification development for the ai-edit.vim repository.

The TypeScript sources under `denops/ai-edit/` are shallowly embedded:
buffers are lists of lines (`List String`, 1-based line numbers as in Vim),
JavaScript string primitives (`split`, `substring`, `trim`, `parseInt`) are
modelled on the character list `String.data`, and the per-buffer request
lifecycle of `LLMService` is modelled as explicit state passing over a
`ServiceState` record.  Streams of provider chunks are finite lists; the
point at which an abort signal is first observed is an explicit parameter,
matching the source's once-per-chunk cooperative cancellation check.
-/

namespace AiEdit

/-- JS `s.split("\n")` on the character level: splits at every newline,
keeping empty segments (`"".split` gives `[""]`, a leading newline gives a
leading empty segment). -/
def splitLinesChars : List Char → List (List Char)
  | [] => [[]]
  | c :: cs =>
      let rest := splitLinesChars cs
      if c = '\n' then [] :: rest
      else
        match rest with
        | [] => [[c]]
        | r :: rs => (c :: r) :: rs

/-- Model of `text.split("\n")` from the TypeScript sources. -/
def splitLines (s : String) : List String :=
  (splitLinesChars s.data).map (fun l => String.mk l)

/-- JS `s.substring(a)` / `s.slice(a)`: characters from index `a` to the end. -/
def strDrop (s : String) (n : Nat) : String := String.mk (s.data.drop n)

/-- JS `s.substring(0, b)`: the first `b` characters. -/
def strTake (s : String) (n : Nat) : String := String.mk (s.data.take n)

/-- JS `s.substring(a, b)`: indices are clamped to the string and swapped
when `a > b`. -/
def jsSubstring (s : String) (a b : Nat) : String :=
  strDrop (strTake s (max a b)) (min a b)

/-- JS `Array.prototype.join("\n")`. -/
def joinWithNewline (ls : List String) : String :=
  match ls with
  | [] => ""
  | x :: xs => xs.foldl (fun acc l => acc ++ "\n" ++ l) x

/-- JS `args.join(" ")`. -/
def joinArgs (args : List String) : String :=
  match args with
  | [] => ""
  | x :: xs => xs.foldl (fun acc a => acc ++ " " ++ a) x

/-- JS `s.trim()`: strip whitespace from both ends. -/
def jsTrim (s : String) : String :=
  String.mk (((s.data.dropWhile Char.isWhitespace).reverse.dropWhile Char.isWhitespace).reverse)

/-- JS `parseInt(s, 10)`: skip leading whitespace, read an optional sign and
then a maximal run of decimal digits; `NaN` (no digits) is modelled as
`none`. -/
def parseIntJs (s : String) : Option Int :=
  let t := s.data.dropWhile Char.isWhitespace
  let signNeg := match t with
    | '-' :: _ => true
    | _ => false
  let rest := match t with
    | '-' :: r => r
    | '+' :: r => r
    | r => r
  let ds := rest.takeWhile Char.isDigit
  if ds.isEmpty then none
  else
    let n := ds.foldl (fun acc c => acc * 10 + (c.toNat - '0'.toNat)) 0
    some (if signNeg then -(n : Int) else (n : Int))

/-- 1-based buffer position, as in `types.ts` (`interface Position`). -/
structure Position where
  line : Nat
  column : Nat
deriving DecidableEq, Repr

/-- Vim's `appendbufline(buf, after, lines)`: insert `lines` after line
`after` (0 inserts at the top of the buffer). -/
def appendAfter (buf : List String) (after : Nat) (ls : List String) : List String :=
  buf.take after ++ ls ++ buf.drop after

/-- `BufferManager.insertText` (buffer.ts, lines 172-187): split `text` on
newlines and `appendbufline` the lines after `position.line - 1`, so the
first inserted line lands exactly at `position.line`. -/
def insertText (buf : List String) (text : String) (pos : Position) : List String :=
  appendAfter buf (pos.line - 1) (splitLines text)

/-- `BufferManager.appendStreamChunk` (buffer.ts, lines 222-257): read
`line("$")` (the buffer's current last line), concatenate the chunk's first
segment onto that line with `setline`, and `appendbufline` any further
segments after it. -/
def appendStreamChunk (buf : List String) (chunk : String) : List String :=
  let currentLastLine := buf.length
  let lastLineContent := buf.getD (currentLastLine - 1) ""
  match splitLines chunk with
  | [] => buf
  | c0 :: rest =>
      let buf1 := buf.set (currentLastLine - 1) (lastLineContent ++ c0)
      if rest.isEmpty then buf1
      else appendAfter buf1 currentLastLine rest

/-- The streaming loop of `LLMService.executePrompt` (service.ts, lines
106-131): the first chunk goes through `insertText` at the computed insert
position, every later chunk through `appendStreamChunk`. -/
def runStream (buf : List String) (pos : Position) (chunks : List String) : List String :=
  match chunks with
  | [] => buf
  | c :: rest => rest.foldl appendStreamChunk (insertText buf c pos)

/-- One mark position as returned by Vim's `getpos`: `[bufnum, lnum, col, off]`
(the `off` component is never read by the sources). -/
structure MarkPos where
  bufnum : Nat
  lnum : Nat
  col : Nat
deriving DecidableEq, Repr

/-- `BufferManager.isVisualSelectionValid` (buffer.ts, lines 65-85): both
marks must have a non-zero line, and the start mark's buffer number must be
0 or the current buffer.  The editor's mode is never consulted. -/
def isVisualSelectionValid (startPos endPos : MarkPos) (currentBuf : Nat) : Bool :=
  if startPos.lnum == 0 || endPos.lnum == 0 then false
  else if startPos.bufnum != 0 && startPos.bufnum != currentBuf then false
  else true

/-- The indexed loop of `BufferManager.getVisualSelection` over all lines
after the first: middle lines are kept whole, the final line is cut to
`endCol` (`substring(0, endCol)`). -/
def sliceRest (endCol : Nat) : List String → List String
  | [] => []
  | [l] => [strTake l endCol]
  | l :: rest => l :: sliceRest endCol rest

/-- The extraction part of `BufferManager.getVisualSelection` (buffer.ts,
lines 107-134), applied to the lines `getline(startLine, endLine)` returned:
a single line is cut by `substring(startCol - 1, endCol)`; several lines are
cut at the first line's start column and the last line's end column and
joined with newlines. -/
def extractSelection (selectedLines : List String) (startCol endCol : Nat) : Option String :=
  match selectedLines with
  | [] => none
  | [only] => some (jsSubstring only (startCol - 1) endCol)
  | first :: rest => some (joinWithNewline (strDrop first (startCol - 1) :: sliceRest endCol rest))

/-- `BufferManager.getVisualSelection` (buffer.ts, lines 90-142): validate
the marks (mark state only, no mode check), fetch the lines of the marked
range, and extract the selected text. -/
def getVisualSelection (buf : List String) (startPos endPos : MarkPos) (currentBuf : Nat) :
    Option String :=
  if isVisualSelectionValid startPos endPos currentBuf then
    extractSelection
      ((buf.drop (startPos.lnum - 1)).take (endPos.lnum + 1 - startPos.lnum))
      startPos.col endPos.col
  else none

/-- `LLMService.getSelectionInsertPosition` (service.ts, lines 304-313): the
line after the selection-end mark, column 1. -/
def getSelectionInsertPosition (selEndLine : Nat) : Position :=
  { line := selEndLine + 1, column := 1 }

/-- The insert-position choice of `LLMService.executePrompt` (service.ts,
lines 88-100): a non-empty selection wins and the output goes after the
selection-end mark; otherwise `savedPosition` if present; otherwise the
cursor position. -/
def computeInsertPosition (selection : Option String) (saved : Option Position)
    (cursor : Position) (selEndLine : Nat) : Position :=
  match selection with
  | some s =>
      if s.length > 0 then getSelectionInsertPosition selEndLine
      else
        match saved with
        | some p => p
        | none => cursor
  | none =>
      match saved with
      | some p => p
      | none => cursor

/-- The per-buffer mutable state of `LLMService`: the `processingBuffers`
map (buffers whose flag is set), the `abortControllers` map (buffer ↦
controller id), the set of controller ids on which `abort()` was signalled,
and a counter to mint fresh controller ids. -/
structure ServiceState where
  processing : List Nat
  handles : List (Nat × Nat)
  aborted : List Nat
  nextId : Nat
deriving DecidableEq, Repr

/-- `this.processingBuffers.get(bufnr)` is truthy. -/
def isBusy (st : ServiceState) (b : Nat) : Bool := st.processing.contains b

/-- `this.abortControllers.get(bufnr)`. -/
def lookupHandle (st : ServiceState) (b : Nat) : Option Nat :=
  (st.handles.find? (fun p => p.1 == b)).map (fun p => p.2)

/-- `processingBuffers.delete(bufnr)` together with
`abortControllers.delete(bufnr)`. -/
def clearBuffer (st : ServiceState) (b : Nat) : ServiceState :=
  { st with
      processing := st.processing.filter (fun x => !(x == b))
      handles := st.handles.filter (fun p => !(p.1 == b)) }

/-- The chunks actually applied by a streaming loop whose abort signal is
first observed at the check before chunk index `j` (the source checks the
signal once per yielded chunk, before applying it). -/
def consumedChunks (chunks : List String) (abortAt : Option Nat) : List String :=
  match abortAt with
  | none => chunks
  | some j => chunks.take j

/-- Observable outcome of one `executePrompt` call: the service state after
the `finally` block, the buffer contents, whether the provider was invoked,
and whether the already-processing notice was shown. -/
structure PromptResult where
  state : ServiceState
  buffer : List String
  providerCalled : Bool
  busyNotice : Bool
deriving DecidableEq, Repr

/-- `LLMService.executePrompt` (service.ts, lines 58-143) as a state
transformer.  A busy buffer short-circuits with a notice and no effects;
otherwise the processing flag and a fresh abort controller are registered,
the insert position is computed, the stream is applied to the buffer (first
chunk via `insertText`, later chunks via `appendStreamChunk`, stopping at
the first observed abort), and the `finally` block clears both maps. -/
def executePrompt (st : ServiceState) (b : Nat) (buf : List String)
    (selection : Option String) (saved : Option Position) (cursor : Position)
    (selEndLine : Nat) (chunks : List String) (abortAt : Option Nat) : PromptResult :=
  if isBusy st b then
    { state := st, buffer := buf, providerCalled := false, busyNotice := true }
  else
    let started : ServiceState :=
      { st with
          processing := b :: st.processing
          handles := (b, st.nextId) :: st.handles
          nextId := st.nextId + 1 }
    let pos := computeInsertPosition selection saved cursor selEndLine
    { state := clearBuffer started b
      buffer := runStream buf pos (consumedChunks chunks abortAt)
      providerCalled := true
      busyNotice := false }

/-- Observable outcome of one `executeRewrite` call.  `replaceCall` is the
argument of the single `replaceSelection` buffer write when it happens;
`none` means the buffer was not touched at all (the rewrite variant performs
no other write). -/
structure RewriteResult where
  state : ServiceState
  replaceCall : Option String
  providerCalled : Bool
  busyNotice : Bool
deriving DecidableEq, Repr

/-- `LLMService.executeRewrite` (service.ts, lines 162-217) as a state
transformer.  Busy check first, then selection validation (an absent or
empty selection is falsy in the source); the stream is accumulated into one
string with no incremental writes; an abort observed mid-accumulation
returns without writing, an error thrown by the stream likewise reaches the
catch block without writing, and only a completed stream calls
`replaceSelection` with the accumulated text. -/
def executeRewrite (st : ServiceState) (b : Nat) (selection : Option String)
    (chunks : List String) (abortAt : Option Nat) (streamErrs : Bool) : RewriteResult :=
  if isBusy st b then
    { state := st, replaceCall := none, providerCalled := false, busyNotice := true }
  else if selection.getD "" == "" then
    { state := st, replaceCall := none, providerCalled := false, busyNotice := false }
  else
    let started : ServiceState :=
      { st with
          processing := b :: st.processing
          handles := (b, st.nextId) :: st.handles
          nextId := st.nextId + 1 }
    let cleared := clearBuffer started b
    let cancelled : Bool :=
      match abortAt with
      | some j => Nat.blt j chunks.length
      | none => false
    if cancelled then
      { state := cleared, replaceCall := none, providerCalled := true, busyNotice := false }
    else if streamErrs then
      { state := cleared, replaceCall := none, providerCalled := true, busyNotice := false }
    else
      { state := cleared
        replaceCall := some (chunks.foldl (fun acc c => acc ++ c) "")
        providerCalled := true
        busyNotice := false }

/-- `LLMService.cancelRequest` (service.ts, lines 148-157): if an abort
controller exists for the buffer, signal abort on it and immediately delete
both the processing flag and the controller; otherwise do nothing. -/
def cancelRequest (st : ServiceState) (b : Nat) : ServiceState :=
  match lookupHandle st b with
  | some id => { clearBuffer st b with aborted := id :: st.aborted }
  | none => st

/-- Taxonomy of the typed errors thrown by
`OpenRouterProvider.handleErrorResponse` (errors.ts). -/
inductive ApiErrorKind where
  | authentication
  | rateLimit (retryAfter : Option Int)
  | invalidRequest
  | serverError
  | apiGeneric
deriving DecidableEq, Repr

/-- The `retryAfter` value stored on a `RateLimitError`:
`retryAfter ? parseInt(retryAfter, 10) : undefined` — an absent or empty
header gives `undefined`, otherwise the header is parsed base-10 (`NaN` is
modelled as `none`). -/
def retryAfterValue (header : Option String) : Option Int :=
  match header with
  | none => none
  | some s => if s == "" then none else parseIntJs s

/-- `OpenRouterProvider.handleErrorResponse` (openrouter.ts, lines 108-154):
the switch on the HTTP status code.  Only 500, 502 and 503 share the
server-error case; every unlisted status falls to the default generic API
error. -/
def handleErrorResponse (statusCode : Nat) (retryAfterHeader : Option String) : ApiErrorKind :=
  if statusCode == 401 then .authentication
  else if statusCode == 429 then .rateLimit (retryAfterValue retryAfterHeader)
  else if statusCode == 400 then .invalidRequest
  else if statusCode == 500 || statusCode == 502 || statusCode == 503 then .serverError
  else .apiGeneric

/-- The response handling of `OpenRouterProvider.sendRequest` (openrouter.ts,
lines 78-93): a non-2xx response (`!response.ok`) is mapped to a typed error
before any fragment of the body is yielded; a 2xx response yields the
stream's fragments. -/
def sendRequestOutcome (statusCode : Nat) (retryAfterHeader : Option String)
    (chunks : List String) : Except ApiErrorKind (List String) :=
  if 200 ≤ statusCode ∧ statusCode < 300 then .ok chunks
  else .error (handleErrorResponse statusCode retryAfterHeader)

/-- Outcome of one provider stream as observed by a consumer that
accumulates it: either it completes with its chunks, or it throws after
yielding some prefix. -/
inductive StreamOutcome where
  | ok (chunks : List String)
  | err (chunksBefore : List String)
deriving DecidableEq, Repr

/-- Modelled from the spec: `LLMService.executeOutput` is not present in the
sources (only its caller `CommandDispatcher.aiEditOutput`, the tests in
`tests/long_line_test.ts` and the spec describe it).  Per the spec it
accumulates the provider's streamed chunks into a string and performs no
buffer mutation; a stream failure surfaces as a thrown error. -/
def executeOutput (stream : StreamOutcome) : Except Unit String :=
  match stream with
  | .ok chunks => .ok (chunks.foldl (fun acc c => acc ++ c) "")
  | .err _ => .error ()

/-- Observable outcome of `aiEditOutput`: the returned string, whether a
provider request was started, and the buffer (returned unchanged — the
output variant performs no buffer write). -/
structure OutputResult where
  result : String
  networkCalled : Bool
  buffer : List String
deriving DecidableEq, Repr

/-- `CommandDispatcher.aiEditOutput` (dispatcher.ts, lines 147-165): join
the arguments, trim, return `""` for an empty prompt without calling the
service at all, and catch any error from the service as `""`. -/
def aiEditOutput (args : List String) (stream : StreamOutcome) (buf : List String) :
    OutputResult :=
  let prompt := jsTrim (joinArgs args)
  if prompt == "" then
    { result := "", networkCalled := false, buffer := buf }
  else
    match executeOutput stream with
    | .ok s => { result := s, networkCalled := true, buffer := buf }
    | .error _ => { result := "", networkCalled := true, buffer := buf }

/-- The ten-line buffer of the spec's streaming scenario (§8): the user
invokes the command at line 5, so the saved insert position is line 6. -/
def tenLineBuffer : List String :=
  ["line 1", "line 2", "line 3", "line 4", "line 5",
   "line 6", "line 7", "line 8", "line 9", "line 10"]

theorem contains_filter_ne (l : List Nat) (b : Nat) :
    (l.filter (fun x => !(x == b))).contains b = false := by
  rw [Bool.eq_false_iff]
  intro hc
  have hmem : b ∈ l.filter (fun x => !(x == b)) := by
    rw [List.contains, List.elem_iff] at hc
    exact hc
  have := List.of_mem_filter hmem
  simp at this

theorem find_filter_ne (l : List (Nat × Nat)) (b : Nat) :
    (l.filter (fun p => !(p.1 == b))).find? (fun p => p.1 == b) = none := by
  rw [List.find?_eq_none]
  intro x hx
  have := List.of_mem_filter hx
  simpa using this

theorem sliceRest_append_last (ec : Nat) (mid : List String) (lastLine : String) :
    sliceRest ec (mid ++ [lastLine]) = mid ++ [strTake lastLine ec] := by
  induction mid with
  | nil => rfl
  | cons m ms ih =>
      cases ms with
      | nil => rfl
      | cons m2 ms2 =>
          show m :: sliceRest ec ((m2 :: ms2) ++ [lastLine]) = _
          rw [ih]
          rfl

/-- C1: the claim says every fragment after the first is applied at the
tracked anchor line, never at the buffer's last line, so that for the spec's
scenario (10-line buffer, insertion at line 6, stream "Hello", "\nWorld",
"!") line 6 becomes "Hello", line 7 becomes "World!" and the trailing lines
never receive stream output.  The code violates this: `appendStreamChunk`
recomputes its target from `line("$")`, so "World!" lands on a fresh line 12
after the old "line 10" while line 7 holds the shifted "line 6".  This
theorem evaluates the embedded code at that failing input; the repository's
own streaming-position test (src/unnamed/part_000) asserts the claimed
behaviour and fails on this code, and `service.ts` calls a
`resetStreamPosition` method that `buffer.ts` does not define. -/
theorem C1_stream_drifts_to_buffer_last_line :
    runStream tenLineBuffer ⟨6, 1⟩ ["Hello", "\nWorld", "!"] =
      ["line 1", "line 2", "line 3", "line 4", "line 5", "Hello",
       "line 6", "line 7", "line 8", "line 9", "line 10", "World!"] ∧
    (runStream tenLineBuffer ⟨6, 1⟩ ["Hello", "\nWorld", "!"])[6]? = some "line 6" ∧
    (runStream tenLineBuffer ⟨6, 1⟩ ["Hello", "\nWorld", "!"]).getLast? = some "World!" := by
  decide

/-- C2 counterexample: the claim says every `executePrompt` invocation whose
context carries a `savedPosition` inserts the first fragment at that saved
position; but when the context also carries a non-empty selection the
selection branch wins and the insert position is the line after the
selection-end mark (here line 43), not the saved position (line 3). -/
theorem C2_counterexample_selection_beats_saved :
    computeInsertPosition (some "const foo = 1;") (some ⟨3, 1⟩) ⟨10, 1⟩ 42 = ⟨43, 1⟩ ∧
    (⟨43, 1⟩ : Position) ≠ ⟨3, 1⟩ := by
  decide

/-- C2 (amended): for every `executePrompt` invocation whose context carries
a `savedPosition` and no non-empty selection, the first fragment is inserted
at `savedPosition`, not at `cursorPosition`; `cursorPosition` is used only
when both `savedPosition` and a selection are absent, so the output location
is determined at invocation time, not at completion time. -/
theorem C2_saved_position_priority (sel : Option String) (p cursor : Position)
    (selEndLine : Nat) (h : sel = none ∨ sel = some "") :
    computeInsertPosition sel (some p) cursor selEndLine = p ∧
    computeInsertPosition sel none cursor selEndLine = cursor := by
  rcases h with h | h <;> subst h <;> exact ⟨rfl, rfl⟩

/-- C2 witness: concrete instance of the amended claim, with no selection,
saved position line 7 and cursor at line 10. -/
theorem C2_saved_position_priority_witness :
    ((none : Option String) = none ∨ (none : Option String) = some "") ∧
    computeInsertPosition none (some ⟨7, 2⟩) ⟨10, 1⟩ 42 = ⟨7, 2⟩ ∧
    computeInsertPosition none none ⟨10, 1⟩ 42 = ⟨10, 1⟩ :=
  ⟨Or.inl rfl,
   (C2_saved_position_priority none ⟨7, 2⟩ ⟨10, 1⟩ 42 (Or.inl rfl)).1,
   (C2_saved_position_priority none ⟨7, 2⟩ ⟨10, 1⟩ 42 (Or.inl rfl)).2⟩

/-- C10: for every `executePrompt` invocation whose context contains a
non-empty selection, the insertion position for the first fragment is the
line after the end-of-selection mark, column 1 — overriding both
`savedPosition` and `cursorPosition`. -/
theorem C10_selection_inserts_after_selection (s : String) (saved : Option Position)
    (cursor : Position) (selEndLine : Nat) (h : s.length > 0) :
    computeInsertPosition (some s) saved cursor selEndLine = ⟨selEndLine + 1, 1⟩ := by
  simp [computeInsertPosition, getSelectionInsertPosition, h]

/-- C10 witness: a two-character selection with a saved position present
still sends the output to the line after the selection-end mark (line 43). -/
theorem C10_selection_inserts_after_selection_witness :
    ("Hi".length > 0) ∧
    computeInsertPosition (some "Hi") (some ⟨3, 1⟩) ⟨10, 1⟩ 42 = ⟨43, 1⟩ :=
  ⟨by decide, C10_selection_inserts_after_selection "Hi" (some ⟨3, 1⟩) ⟨10, 1⟩ 42 (by decide)⟩

/-- C3: for every buffer, at most one request is active at a time — if the
processing flag is set for a buffer, a second start (`executePrompt` or
`executeRewrite`) on that buffer is a no-op that shows a notice, performs no
provider call and no buffer mutation, while a start on a distinct, non-busy
buffer is not blocked. -/
theorem C3_per_buffer_busy_exclusion (st : ServiceState) (b bq : Nat) (buf : List String)
    (sel selq : Option String) (saved : Option Position) (cursor : Position)
    (selEndLine : Nat) (chunks chunksq : List String) (abortAt abortAtq : Option Nat)
    (errs : Bool) (hb : isBusy st b = true) (hbq : isBusy st bq = false) :
    executePrompt st b buf sel saved cursor selEndLine chunks abortAt =
      { state := st, buffer := buf, providerCalled := false, busyNotice := true } ∧
    executeRewrite st b sel chunks abortAt errs =
      { state := st, replaceCall := none, providerCalled := false, busyNotice := true } ∧
    (executePrompt st bq buf selq saved cursor selEndLine chunksq abortAtq).providerCalled =
      true := by
  refine ⟨?_, ?_, ?_⟩
  · simp [executePrompt, hb]
  · simp [executeRewrite, hb]
  · simp [executePrompt, hbq]

/-- C3 witness: buffer 1 is busy, buffer 2 is not; starting on buffer 1 is
rejected with a notice and no effect, starting on buffer 2 calls the
provider. -/
theorem C3_per_buffer_busy_exclusion_witness :
    isBusy ⟨[1], [(1, 0)], [], 1⟩ 1 = true ∧
    isBusy ⟨[1], [(1, 0)], [], 1⟩ 2 = false ∧
    executePrompt ⟨[1], [(1, 0)], [], 1⟩ 1 ["a"] none none ⟨1, 1⟩ 0 ["x"] none =
      { state := ⟨[1], [(1, 0)], [], 1⟩, buffer := ["a"],
        providerCalled := false, busyNotice := true } ∧
    executeRewrite ⟨[1], [(1, 0)], [], 1⟩ 1 none ["x"] none false =
      { state := ⟨[1], [(1, 0)], [], 1⟩, replaceCall := none,
        providerCalled := false, busyNotice := true } ∧
    (executePrompt ⟨[1], [(1, 0)], [], 1⟩ 2 ["a"] none none ⟨1, 1⟩ 0 ["x"] none).providerCalled =
      true := by
  have h := C3_per_buffer_busy_exclusion ⟨[1], [(1, 0)], [], 1⟩ 1 2 ["a"] none none none
    ⟨1, 1⟩ 0 ["x"] ["x"] none none false (by decide) (by decide)
  exact ⟨by decide, by decide, h.1, h.2.1, h.2.2⟩

/-- C4: `executeRewrite` accumulates the fragments into one string with no
incremental buffer writes and replaces the selection only on successful
completion — an abort observed mid-accumulation or an error thrown before
completion leaves the buffer (in particular the original selection text)
entirely unmutated, `replaceSelection` being the variant's only write. -/
theorem C4_rewrite_no_partial_commit (st : ServiceState) (b : Nat) (sel : String)
    (chunks : List String) (j : Nat)
    (hbusy : isBusy st b = false) (hsel : (sel == "") = false) :
    (∀ errs, j < chunks.length →
      (executeRewrite st b (some sel) chunks (some j) errs).replaceCall = none) ∧
    (executeRewrite st b (some sel) chunks none true).replaceCall = none ∧
    (executeRewrite st b (some sel) chunks none false).replaceCall =
      some (chunks.foldl (fun acc c => acc ++ c) "") := by
  refine ⟨?_, ?_, ?_⟩
  · intro errs hj
    have hblt : Nat.blt j chunks.length = true := by
      rw [Nat.blt_eq]; exact hj
    simp [executeRewrite, hbusy, hsel, hblt]
  · simp [executeRewrite, hbusy, hsel]
  · simp [executeRewrite, hbusy, hsel]

/-- C4 witness: with a free buffer and the selection "old text", aborting at
the check before the second of two chunks commits nothing, an erroring
stream commits nothing, and the completed stream commits exactly "ab". -/
theorem C4_rewrite_no_partial_commit_witness :
    isBusy ⟨[], [], [], 0⟩ 1 = false ∧
    (("old text" == "") = false) ∧
    (1 < (["a", "b"] : List String).length) ∧
    (executeRewrite ⟨[], [], [], 0⟩ 1 (some "old text") ["a", "b"] (some 1) false).replaceCall =
      none ∧
    (executeRewrite ⟨[], [], [], 0⟩ 1 (some "old text") ["a", "b"] none true).replaceCall =
      none ∧
    (executeRewrite ⟨[], [], [], 0⟩ 1 (some "old text") ["a", "b"] none false).replaceCall =
      some "ab" := by
  have h := C4_rewrite_no_partial_commit ⟨[], [], [], 0⟩ 1 "old text" ["a", "b"] 1
    (by decide) (by decide)
  refine ⟨by decide, by decide, by decide, h.1 false (by decide), h.2.1, ?_⟩
  rw [h.2.2]
  rfl

/-- C7: when an abort controller exists for the buffer, `cancelRequest`
signals abort on it and immediately removes both the processing flag and the
handle, so a start issued immediately afterwards for the same buffer is not
rejected as busy even though the cancelled request has not yet finished
unwinding (the state before the cancel is arbitrary, including one whose
processing flag for the buffer is still set). -/
theorem C7_cancel_clears_and_unblocks (st : ServiceState) (b id : Nat) (buf : List String)
    (sel : Option String) (saved : Option Position) (cursor : Position) (selEndLine : Nat)
    (chunks : List String) (h : lookupHandle st b = some id) :
    (cancelRequest st b).aborted.contains id = true ∧
    isBusy (cancelRequest st b) b = false ∧
    lookupHandle (cancelRequest st b) b = none ∧
    (executePrompt (cancelRequest st b) b buf sel saved cursor selEndLine chunks
      none).providerCalled = true ∧
    (executePrompt (cancelRequest st b) b buf sel saved cursor selEndLine chunks
      none).busyNotice = false := by
  have hcancel : cancelRequest st b = { clearBuffer st b with aborted := id :: st.aborted } := by
    unfold cancelRequest
    rw [h]
  have hbusy : isBusy (cancelRequest st b) b = false := by
    rw [hcancel]
    simp [isBusy, clearBuffer, contains_filter_ne]
  refine ⟨?_, hbusy, ?_, ?_, ?_⟩
  · rw [hcancel]
    simp
  · rw [hcancel]
    simp [lookupHandle, clearBuffer, find_filter_ne]
  · simp [executePrompt, hbusy]
  · simp [executePrompt, hbusy]

/-- C7 witness: buffer 1 is processing with live controller 5; cancelling
records the abort on controller 5, clears the flag and the handle, and an
immediate restart on buffer 1 reaches the provider without a busy notice. -/
theorem C7_cancel_clears_and_unblocks_witness :
    lookupHandle ⟨[1], [(1, 5)], [], 6⟩ 1 = some 5 ∧
    (cancelRequest ⟨[1], [(1, 5)], [], 6⟩ 1).aborted.contains 5 = true ∧
    isBusy (cancelRequest ⟨[1], [(1, 5)], [], 6⟩ 1) 1 = false ∧
    lookupHandle (cancelRequest ⟨[1], [(1, 5)], [], 6⟩ 1) 1 = none ∧
    (executePrompt (cancelRequest ⟨[1], [(1, 5)], [], 6⟩ 1) 1 ["a"] none none ⟨1, 1⟩ 0
      ["x"] none).providerCalled = true ∧
    (executePrompt (cancelRequest ⟨[1], [(1, 5)], [], 6⟩ 1) 1 ["a"] none none ⟨1, 1⟩ 0
      ["x"] none).busyNotice = false := by
  have h := C7_cancel_clears_and_unblocks ⟨[1], [(1, 5)], [], 6⟩ 1 5 ["a"] none none
    ⟨1, 1⟩ 0 ["x"] (by decide)
  exact ⟨by decide, h.1, h.2.1, h.2.2.1, h.2.2.2.1, h.2.2.2.2⟩

/-- C5: `insertText(text, position)` splits `text` on newlines into `k`
lines and inserts them so the first inserted line occupies exactly
`position.line`, pushing the line previously there down by `k`; the inserted
lines are never appended at the end of the buffer (the cursor is not even an
input of the operation). -/
theorem C5_insertText_at_position (buf : List String) (text : String) (L c : Nat)
    (first : String) (rest : List String)
    (h1 : 1 ≤ L) (h2 : L ≤ buf.length + 1) (hs : splitLines text = first :: rest) :
    (insertText buf text ⟨L, c⟩).length = buf.length + (first :: rest).length ∧
    (insertText buf text ⟨L, c⟩)[L - 1]? = some first ∧
    (insertText buf text ⟨L, c⟩)[(L - 1) + (first :: rest).length]? = buf[L - 1]? := by
  have hn : L - 1 ≤ buf.length := by omega
  unfold insertText appendAfter
  rw [hs]
  dsimp only
  have hlen : (buf.take (L - 1)).length = L - 1 := by
    rw [List.length_take]
    omega
  refine ⟨?_, ?_, ?_⟩
  · simp [hlen]
    omega
  · rw [List.getElem?_append, if_pos (by rw [List.length_append, hlen, List.length_cons]; omega),
      List.getElem?_append_right hlen.le, hlen, Nat.sub_self]
    simp
  · rw [List.getElem?_append_right (le_of_eq (by rw [List.length_append, hlen])),
      List.length_append, hlen, Nat.sub_self, List.getElem?_drop, Nat.add_zero]

/-- C5 witness: inserting "x\ny" (two lines) at line 2 of a three-line
buffer puts "x" at line 2 and moves the old line 2 ("b") to line 4. -/
theorem C5_insertText_at_position_witness :
    (1 ≤ 2) ∧ (2 ≤ (["a", "b", "c"] : List String).length + 1) ∧
    splitLines "x\ny" = ["x", "y"] ∧
    (insertText ["a", "b", "c"] "x\ny" ⟨2, 1⟩).length = 5 ∧
    (insertText ["a", "b", "c"] "x\ny" ⟨2, 1⟩)[1]? = some "x" ∧
    (insertText ["a", "b", "c"] "x\ny" ⟨2, 1⟩)[3]? = (["a", "b", "c"] : List String)[1]? := by
  have h := C5_insertText_at_position ["a", "b", "c"] "x\ny" 2 1 "x" ["y"]
    (by decide) (by decide) (by decide)
  exact ⟨by decide, by decide, by decide, h.1, h.2.1, h.2.2⟩

/-- C6: `getVisualSelection` returns the selected text whenever both marks
have a non-zero line and the start mark belongs to the current buffer,
purely from mark state (the editor's interaction mode is not an input of
the function at all); it returns `none` when either mark's line is 0; and
for a valid multi-line selection the result is the first line from the
start column to its end, the middle lines whole, and the last line up to
the end column, joined by newlines. -/
theorem C6_selection_from_marks_only (buf : List String) (sp ep : MarkPos) (cb : Nat)
    (first lastLine : String) (mid : List String)
    (hs : sp.lnum ≠ 0) (he : ep.lnum ≠ 0) (hb : sp.bufnum = 0 ∨ sp.bufnum = cb) :
    (∀ (sq eq2 : MarkPos) (cq : Nat), (sq.lnum = 0 ∨ eq2.lnum = 0) →
        getVisualSelection buf sq eq2 cq = none) ∧
    (sp.lnum ≤ ep.lnum → ep.lnum ≤ buf.length →
        (getVisualSelection buf sp ep cb).isSome = true) ∧
    ((buf.drop (sp.lnum - 1)).take (ep.lnum + 1 - sp.lnum) = first :: (mid ++ [lastLine]) →
        getVisualSelection buf sp ep cb =
          some (joinWithNewline
            (strDrop first (sp.col - 1) :: (mid ++ [strTake lastLine ep.col])))) := by
  have hval : isVisualSelectionValid sp ep cb = true := by
    rcases hb with hb | hb <;> simp [isVisualSelectionValid, hs, he, hb]
  refine ⟨?_, ?_, ?_⟩
  · intro sq eq2 cq hzero
    rcases hzero with hz | hz <;> simp [getVisualSelection, isVisualSelectionValid, hz]
  · intro hle hlast
    rw [getVisualSelection, if_pos hval]
    have hlen : ((buf.drop (sp.lnum - 1)).take (ep.lnum + 1 - sp.lnum)).length =
        ep.lnum + 1 - sp.lnum := by
      rw [List.length_take, List.length_drop]
      omega
    rcases hsel : (buf.drop (sp.lnum - 1)).take (ep.lnum + 1 - sp.lnum) with _ | ⟨a, t⟩
    · rw [hsel] at hlen
      simp at hlen
      omega
    · rcases t with _ | ⟨a2, t2⟩ <;> simp [extractSelection]
  · intro hdec
    rw [getVisualSelection, if_pos hval, hdec]
    rcases mid with _ | ⟨m, ms⟩
    · rfl
    · show some (joinWithNewline
        (strDrop first (sp.col - 1) :: sliceRest ep.col ((m :: ms) ++ [lastLine]))) = _
      rw [sliceRest_append_last]

/-- C6 witness: marks (line 2, col 2) to (line 3, col 2) in a four-line
buffer: a zero-line mark yields `none`, the valid marks yield a string, and
the multi-line extraction gives "ravo\nch". -/
theorem C6_selection_from_marks_only_witness :
    getVisualSelection ["alpha", "bravo", "charlie", "delta"] ⟨1, 0, 1⟩ ⟨0, 3, 2⟩ 1 = none ∧
    (getVisualSelection ["alpha", "bravo", "charlie", "delta"] ⟨0, 2, 2⟩ ⟨0, 3, 2⟩ 1).isSome =
      true ∧
    getVisualSelection ["alpha", "bravo", "charlie", "delta"] ⟨0, 2, 2⟩ ⟨0, 3, 2⟩ 1 =
      some "ravo\nch" := by
  have h := C6_selection_from_marks_only ["alpha", "bravo", "charlie", "delta"]
    ⟨0, 2, 2⟩ ⟨0, 3, 2⟩ 1 "bravo" "charlie" [] (by decide) (by decide) (Or.inl rfl)
  refine ⟨h.1 ⟨1, 0, 1⟩ ⟨0, 3, 2⟩ 1 (Or.inl rfl), h.2.1 (by decide) (by decide), ?_⟩
  rw [h.2.2 (by decide)]
  rfl

/-- C8 counterexample: the claim says every 5xx status raises a server
error, but the switch only lists 500, 502 and 503 — status 504 falls through
to the default generic API error. -/
theorem C8_counterexample_504_is_generic :
    handleErrorResponse 504 none = ApiErrorKind.apiGeneric ∧
    ApiErrorKind.apiGeneric ≠ ApiErrorKind.serverError := by
  decide

/-- C8 (amended): a non-2xx HTTP response maps to a typed error before any
fragment is yielded: 401 raises an authentication error, 429 raises a
rate-limit error whose `retryAfter` carries the parsed Retry-After header in
seconds (Retry-After: 30 gives 30), 400 raises an invalid-request error,
statuses 500, 502 and 503 raise a server error, and any other non-2xx
status — including other 5xx statuses such as 501 or 504 — raises the
generic API error. -/
theorem C8_error_status_mapping (h : Option String) (chunks : List String) :
    handleErrorResponse 401 h = .authentication ∧
    handleErrorResponse 429 h = .rateLimit (retryAfterValue h) ∧
    handleErrorResponse 429 (some "30") = .rateLimit (some 30) ∧
    handleErrorResponse 400 h = .invalidRequest ∧
    (∀ s, s = 500 ∨ s = 502 ∨ s = 503 → handleErrorResponse s h = .serverError) ∧
    (∀ s, s ≠ 401 → s ≠ 429 → s ≠ 400 → s ≠ 500 → s ≠ 502 → s ≠ 503 →
        handleErrorResponse s h = .apiGeneric) ∧
    (∀ s, ¬(200 ≤ s ∧ s < 300) →
        sendRequestOutcome s h chunks = .error (handleErrorResponse s h)) := by
  refine ⟨rfl, rfl, by decide, rfl, ?_, ?_, ?_⟩
  · intro s hsv
    rcases hsv with hsv | hsv | hsv <;> subst hsv <;> rfl
  · intro s h1 h2 h3 h4 h5 h6
    simp [handleErrorResponse, h1, h2, h3, h4, h5, h6]
  · intro s hns
    rw [sendRequestOutcome, if_neg hns]

/-- C8 witness: the mapping at concrete statuses, with Retry-After "30"
parsed to 30 for status 429 and status 504 landing on the generic error
before any fragment is yielded. -/
theorem C8_error_status_mapping_witness :
    handleErrorResponse 401 (some "30") = .authentication ∧
    handleErrorResponse 429 (some "30") = .rateLimit (some 30) ∧
    handleErrorResponse 400 (some "30") = .invalidRequest ∧
    handleErrorResponse 502 (some "30") = .serverError ∧
    handleErrorResponse 504 (some "30") = .apiGeneric ∧
    sendRequestOutcome 504 (some "30") ["x"] =
      .error (handleErrorResponse 504 (some "30")) := by
  have h := C8_error_status_mapping (some "30") ["x"]
  exact ⟨h.1, h.2.2.1, h.2.2.2.1,
    h.2.2.2.2.1 502 (Or.inr (Or.inl rfl)),
    h.2.2.2.2.2.1 504 (by decide) (by decide) (by decide) (by decide) (by decide) (by decide),
    h.2.2.2.2.2.2 504 (by decide)⟩

/-- C9: `aiEditOutput` (the entry point behind `runPromptForResult`)
performs no buffer mutation and returns the accumulated response text, or
the empty string on any failure; in particular an empty prompt returns ""
without any network call.  The service half (`executeOutput`) is modelled
from the spec, the dispatcher half from `dispatcher.ts`. -/
theorem C9_output_returns_text_without_mutation (args : List String)
    (stream : StreamOutcome) (buf : List String) :
    (∀ args2, (jsTrim (joinArgs args2) == "") = true →
        aiEditOutput args2 stream buf =
          { result := "", networkCalled := false, buffer := buf }) ∧
    (aiEditOutput args stream buf).buffer = buf ∧
    (∀ chunks, (jsTrim (joinArgs args) == "") = false → stream = .ok chunks →
        (aiEditOutput args stream buf).result =
          chunks.foldl (fun acc c => acc ++ c) "") ∧
    (∀ pre, stream = .err pre → (aiEditOutput args stream buf).result = "") := by
  refine ⟨?_, ?_, ?_, ?_⟩
  · intro args2 hq
    simp [aiEditOutput, hq]
  · unfold aiEditOutput
    cases stream <;> dsimp only [executeOutput] <;> split <;> rfl
  · intro chunks hq hok
    subst hok
    simp [aiEditOutput, executeOutput, hq]
  · intro pre herr
    subst herr
    unfold aiEditOutput
    dsimp only [executeOutput]
    split <;> rfl

/-- C9 witness: the empty prompt returns "" with no network call; the
prompt "say hi" with a completed stream ["a", "b"] returns "ab"; an
erroring stream returns ""; the buffer is untouched in each case. -/
theorem C9_output_returns_text_without_mutation_witness :
    (jsTrim (joinArgs [""]) == "") = true ∧
    aiEditOutput [""] (.ok ["a", "b"]) ["line"] =
      { result := "", networkCalled := false, buffer := ["line"] } ∧
    (aiEditOutput ["say", "hi"] (.ok ["a", "b"]) ["line"]).buffer = ["line"] ∧
    (jsTrim (joinArgs ["say", "hi"]) == "") = false ∧
    (aiEditOutput ["say", "hi"] (.ok ["a", "b"]) ["line"]).result = "ab" ∧
    (aiEditOutput ["say", "hi"] (.err ["a"]) ["line"]).result = "" := by
  have h1 := C9_output_returns_text_without_mutation ["say", "hi"]
    (.ok ["a", "b"]) ["line"]
  have h2 := C9_output_returns_text_without_mutation ["say", "hi"]
    (.err ["a"]) ["line"]
  refine ⟨by decide, h1.1 [""] (by decide), h1.2.1, by decide, ?_, h2.2.2.2 ["a"] rfl⟩
  rw [h1.2.2.1 ["a", "b"] (by decide) rfl]
  rfl

end AiEdit
